import Mathlib

/-!
Verification development for the deterministic Tetris engine
(src/lib/tetris/engine.ts) and the rollback netcode coordinator
(src/lib/multiplayer/netcode.ts).

The TypeScript source is shallowly embedded below.  JS `number` values that
the source only ever uses as integers are modelled as `Nat`, `Int`, with the
32-bit wraparound of the RNG written explicitly as `% 2^32`.  Millisecond
quantities (deltaTime and the accumulating timers) are modelled as `Rat`:
every JS double is a rational, and none of the verified statements depends on
float rounding of timer sums.  The engine field `dirtyRows` is omitted from
the model: it is a render-only buffer written by `placePiece`/`clearLines`,
drained by `getDirtyRows`, and never read by `update`, `serializeState`,
`loadState` or the coordinator.
-/

namespace Tetris

/-- One frame of button state, mirroring `InputState` in engine.ts. -/
structure InputState where
  left : Bool
  right : Bool
  softDrop : Bool
  hardDrop : Bool
  rotate : Bool
  hold : Bool
deriving DecidableEq

/-- All six buttons released: `getDefaultInput` in netcode.ts. -/
def neutralInput : InputState := ⟨false, false, false, false, false, false⟩

/-- The pseudo-random generator `SeededRNG`: the whole mutable state is one
number. -/
structure SeededRNG where
  state : ℕ
deriving DecidableEq

/-- The `SeededRNG.next` step
`state = (state * 1664525 + 1013904223) % 0x100000000`.
For a 32-bit state every JS intermediate stays below `2^53`, so the double
arithmetic of the source is exact and the recurrence is faithfully a `Nat`
computation.  Returns the drawn value together with the advanced generator;
in the source the returned value and the new state coincide. -/
def SeededRNG.next (r : SeededRNG) : ℕ × SeededRNG :=
  ((r.state * 1664525 + 1013904223) % 4294967296,
   ⟨(r.state * 1664525 + 1013904223) % 4294967296⟩)

/-- `SeededRNG.nextInt(max)`, which the source computes as
`Math.floor(next() / 2^32 * max)`.  For the bag shuffle `max ≤ 7`, so
`next() * max < 2^35 < 2^53` and the float expression is exactly the natural
number `next() * max / 2^32` (floor division). -/
def SeededRNG.nextInt (r : SeededRNG) (m : ℕ) : ℕ × SeededRNG :=
  ((r.next.1 * m) / 4294967296, r.next.2)

/-- `SeededRNG.clone`: the source allocates `new SeededRNG(0)` and then
overwrites its state with the current state. -/
def SeededRNG.clone (r : SeededRNG) : SeededRNG := ⟨r.state⟩

/-- The 7 × 4 table `PIECES` of 4×4 occupancy templates
(I, O, T, S, Z, J, L — Standard Rotation System), copied verbatim. -/
def PIECES : List (List (List (List ℕ))) := [
  [ [[0,0,0,0],[1,1,1,1],[0,0,0,0],[0,0,0,0]],
    [[0,0,1,0],[0,0,1,0],[0,0,1,0],[0,0,1,0]],
    [[0,0,0,0],[0,0,0,0],[1,1,1,1],[0,0,0,0]],
    [[0,1,0,0],[0,1,0,0],[0,1,0,0],[0,1,0,0]] ],
  [ [[0,1,1,0],[0,1,1,0],[0,0,0,0],[0,0,0,0]],
    [[0,1,1,0],[0,1,1,0],[0,0,0,0],[0,0,0,0]],
    [[0,1,1,0],[0,1,1,0],[0,0,0,0],[0,0,0,0]],
    [[0,1,1,0],[0,1,1,0],[0,0,0,0],[0,0,0,0]] ],
  [ [[0,1,0,0],[1,1,1,0],[0,0,0,0],[0,0,0,0]],
    [[0,1,0,0],[0,1,1,0],[0,1,0,0],[0,0,0,0]],
    [[0,0,0,0],[1,1,1,0],[0,1,0,0],[0,0,0,0]],
    [[0,1,0,0],[1,1,0,0],[0,1,0,0],[0,0,0,0]] ],
  [ [[0,1,1,0],[1,1,0,0],[0,0,0,0],[0,0,0,0]],
    [[0,1,0,0],[0,1,1,0],[0,0,1,0],[0,0,0,0]],
    [[0,0,0,0],[0,1,1,0],[1,1,0,0],[0,0,0,0]],
    [[1,0,0,0],[1,1,0,0],[0,1,0,0],[0,0,0,0]] ],
  [ [[1,1,0,0],[0,1,1,0],[0,0,0,0],[0,0,0,0]],
    [[0,0,1,0],[0,1,1,0],[0,1,0,0],[0,0,0,0]],
    [[0,0,0,0],[1,1,0,0],[0,1,1,0],[0,0,0,0]],
    [[0,1,0,0],[1,1,0,0],[1,0,0,0],[0,0,0,0]] ],
  [ [[1,0,0,0],[1,1,1,0],[0,0,0,0],[0,0,0,0]],
    [[0,1,1,0],[0,1,0,0],[0,1,0,0],[0,0,0,0]],
    [[0,0,0,0],[1,1,1,0],[0,0,1,0],[0,0,0,0]],
    [[0,1,0,0],[0,1,0,0],[1,1,0,0],[0,0,0,0]] ],
  [ [[0,0,1,0],[1,1,1,0],[0,0,0,0],[0,0,0,0]],
    [[0,1,0,0],[0,1,0,0],[0,1,1,0],[0,0,0,0]],
    [[0,0,0,0],[1,1,1,0],[1,0,0,0],[0,0,0,0]],
    [[1,1,0,0],[0,1,0,0],[0,1,0,0],[0,0,0,0]] ] ]

/-- The `SRS_KICKS` tables: entry 0 is the I-piece table, entry 1 the shared
JLSTZ table; each has one 5-entry list of `(dx, dy)` offsets per rotation
transition. -/
def SRS_KICKS : List (List (List (ℤ × ℤ))) := [
  [ [(0,0), (-1,0), (2,0), (-1,0), (2,0)],
    [(0,0), (2,0), (-1,0), (2,1), (-1,-2)],
    [(0,0), (1,0), (-2,0), (1,0), (-2,0)],
    [(0,0), (-2,0), (1,0), (-2,-1), (1,2)] ],
  [ [(0,0), (-1,0), (-1,1), (0,-2), (-1,-2)],
    [(0,0), (1,0), (1,-1), (0,2), (1,2)],
    [(0,0), (1,0), (1,1), (0,-2), (1,-2)],
    [(0,0), (-1,0), (-1,-1), (0,2), (-1,2)] ] ]

/-- `GamePreset`, the immutable ruleset record. -/
structure GamePreset where
  name : String
  gravity : List ℚ
  lockDelay : ℚ
  das : ℚ
  arr : ℚ
  lineClearDelay : ℚ
  entryDelay : ℚ
  scoreTable : List ℕ
  garbageTable : List ℕ
deriving DecidableEq

/-- `PRESETS.guideline`. -/
def guidelinePreset : GamePreset :=
  { name := "Guideline"
    gravity := [1000, 793, 618, 473, 355, 262, 190, 135, 94, 64, 43, 28, 18, 11, 7, 4, 2, 1]
    lockDelay := 500
    das := 167
    arr := 33
    lineClearDelay := 400
    entryDelay := 183
    scoreTable := [100, 300, 500, 800, 1200, 1600]
    garbageTable := [0, 0, 1, 2, 4, 0] }

/-- `PRESETS.nes`. -/
def nesPreset : GamePreset :=
  { name := "NES 1989"
    gravity := [48, 43, 38, 33, 28, 23, 18, 13, 8, 6, 5, 5, 5, 4, 4, 4, 3, 3, 3, 2, 2, 2, 2, 2, 2, 2, 2, 2, 2, 1]
    lockDelay := 0
    das := 267
    arr := 100
    lineClearDelay := 600
    entryDelay := 100
    scoreTable := [40, 100, 300, 1200]
    garbageTable := [0, 0, 0, 0] }

/-- `PRESETS[presetName] || PRESETS.guideline`, the lenient lookup used by
`createInitialState`. -/
def lookupPreset (presetName : String) : GamePreset :=
  if presetName = "guideline" then guidelinePreset
  else if presetName = "nes" then nesPreset
  else guidelinePreset

/-- `PieceData`: type index 0–6, origin of the 4×4 template, rotation 0–3.
Coordinates are integers because wall kicks and falling may take the
candidate origin below zero before `canPlace` rejects it. -/
structure PieceData where
  type : ℕ
  x : ℤ
  y : ℤ
  rotation : ℕ
deriving DecidableEq

/-- The result value of `TetrisEngine.update`. -/
inductive GameResult where
  | cont : GameResult
  | linesCleared : ℕ → Bool → GameResult
  | gameOver : GameResult
deriving DecidableEq

/-- `GameState` with every field of the source record.  The playfield is the
40-row bitboard (one `Nat` of low 10 meaningful bits per row, row 0 at the
bottom). -/
structure GameState where
  playfield : List ℕ
  currentPiece : Option PieceData
  nextQueue : List ℕ
  holdPiece : Option ℕ
  canHold : Bool
  score : ℕ
  lines : ℕ
  level : ℕ
  combo : ℕ
  b2b : ℕ
  garbageQueue : List ℕ
  lockTimer : ℚ
  dropTimer : ℚ
  dasTimer : ℚ
  arrTimer : ℚ
  dasDirection : ℤ
  gameOver : Bool
  time : ℚ
  seed : ℕ
  rng : SeededRNG
  preset : GamePreset
deriving DecidableEq

/-- The engine: its `GameState` plus the private 7-bag buffer. -/
structure TetrisEngine where
  state : GameState
  bag : List ℕ
deriving DecidableEq

/-- Replace the game state of an engine. -/
def withGS (e : TetrisEngine) (s : GameState) : TetrisEngine := { e with state := s }

/-!  The 7-bag generator.  `fillBag`/`getNextPiece` act on the pair
(bag contents, generator); the engine-level wrappers below plumb that pair
through the engine record. -/

/-- The JS destructuring swap `[bag[i], bag[j]] = [bag[j], bag[i]]`. -/
def listSwap (l : List ℕ) (i j : ℕ) : List ℕ :=
  (l.set i (l.getD j 0)).set j (l.getD i 0)

/-- One iteration of the Fisher–Yates loop body at index `i`:
`const j = this.state.rng.nextInt(i + 1)` followed by the swap. -/
def fyStep (br : List ℕ × SeededRNG) (i : ℕ) : List ℕ × SeededRNG :=
  (listSwap br.1 i (br.2.nextInt (i + 1)).1, (br.2.nextInt (i + 1)).2)

/-- The Fisher–Yates loop of `fillBag`:
`for (let i = bag.length - 1; i > 0; i--)` over the fresh bag
`[0, 1, 2, 3, 4, 5, 6]`. -/
def fyFold (br : List ℕ × SeededRNG) : List ℕ × SeededRNG :=
  [6, 5, 4, 3, 2, 1].foldl fyStep br

/-- `fillBag`: refill with a shuffled `[0..6]` only when the bag is empty. -/
def fillBagPair (br : List ℕ × SeededRNG) : List ℕ × SeededRNG :=
  if br.1.isEmpty then fyFold ([0, 1, 2, 3, 4, 5, 6], br.2) else br

/-- `getNextPiece`: `fillBag(); return this.bag.pop()!`.  `pop` removes and
returns the last element; the bag is never empty here because `fillBag` just
ran, so the `!` assertion is modelled by `getLastD 0`. -/
def drawStep (br : List ℕ × SeededRNG) : ℕ × (List ℕ × SeededRNG) :=
  ((fillBagPair br).1.getLastD 0, ((fillBagPair br).1.dropLast, (fillBagPair br).2))

/-- The first `n` pieces drawn from a bag state, with the final state. -/
def drawList (br : List ℕ × SeededRNG) : ℕ → List ℕ × (List ℕ × SeededRNG)
  | 0 => ([], br)
  | n + 1 =>
    ((drawStep br).1 :: (drawList (drawStep br).2 n).1, (drawList (drawStep br).2 n).2)

/-!  Engine-level wrappers of the bag machinery. -/

/-- Engine-level `fillBag`. -/
def fillBag (e : TetrisEngine) : TetrisEngine :=
  { state := { e.state with rng := (fillBagPair (e.bag, e.state.rng)).2 },
    bag := (fillBagPair (e.bag, e.state.rng)).1 }

/-- Engine-level `getNextPiece`. -/
def getNextPiece (e : TetrisEngine) : ℕ × TetrisEngine :=
  ((drawStep (e.bag, e.state.rng)).1,
   { state := { e.state with rng := (drawStep (e.bag, e.state.rng)).2.2 },
     bag := (drawStep (e.bag, e.state.rng)).2.1 })

/-- Draw one piece and push it at the back of the lookahead queue. -/
def pushDraw (e : TetrisEngine) : TetrisEngine :=
  withGS (getNextPiece e).2
    { (getNextPiece e).2.state with
      nextQueue := (getNextPiece e).2.state.nextQueue ++ [(getNextPiece e).1] }

/-- The `while (nextQueue.length < 5) push(getNextPiece())` loop of
`spawnPiece`. -/
def topUpQueue (e : TetrisEngine) : TetrisEngine :=
  (List.range (5 - e.state.nextQueue.length)).foldl (fun e2 _ => pushDraw e2) e

/-- The cell of the 4×4 template of (type, rotation) at (row dy, column dx);
out-of-range indices give 0, matching the truthiness test of the source. -/
def shapeCell (t r dy dx : ℕ) : ℕ :=
  (((PIECES.getD t []).getD r []).getD dy []).getD dx 0

/-- `canPlace`: every occupied template cell must land at x ∈ [0, 10),
y ≥ 0, and — when y < 40 — on an unset playfield bit; y ≥ 40 is allowed. -/
def canPlace (pf : List ℕ) (p : PieceData) : Bool :=
  (List.range 4).all fun dy => (List.range 4).all fun dx =>
    if shapeCell p.type p.rotation dy dx ≠ 0 then
      if p.x + dx < 0 ∨ 10 ≤ p.x + dx ∨ p.y + dy < 0 then false
      else if p.y + dy < 40 then
        decide ((pf.getD (p.y + dy).toNat 0 &&& (1 <<< (p.x + dx).toNat)) = 0)
      else true
    else true

/-- `tryKick`: walk the kick offsets in order and return the first placeable
rotated piece; the I piece uses kick table 0, every other piece table 1. -/
def tryKick (pf : List ℕ) (p : PieceData) (newRotation : ℕ) : Option PieceData :=
  (((if p.type = 0 then SRS_KICKS.getD 0 [] else SRS_KICKS.getD 1 []).getD p.rotation []).map
    fun k => { p with x := p.x + k.1, y := p.y - k.2, rotation := newRotation }).find?
    fun tp => canPlace pf tp

/-- `spawnPiece`: top the lookahead queue up to 5, shift its head as the new
piece type, push one more draw, and place the piece at (3, 20, rotation 0);
a blocked spawn sets `gameOver` and reports failure. -/
def spawnPiece (e : TetrisEngine) : Bool × TetrisEngine :=
  let e1 := topUpQueue e
  let pieceType := e1.state.nextQueue.headD 0
  let e2 := withGS e1 { e1.state with nextQueue := e1.state.nextQueue.tail }
  let e3 := pushDraw e2
  let piece : PieceData := ⟨pieceType, 3, 20, 0⟩
  if canPlace e3.state.playfield piece then
    (true, withGS e3 { e3.state with currentPiece := some piece, canHold := true, lockTimer := 0 })
  else
    (false, withGS e3 { e3.state with gameOver := true })

/-- `placePiece`: OR every occupied template cell into its board row, rows
outside [0, 40) are skipped. -/
def placePiece (pf : List ℕ) (p : PieceData) : List ℕ :=
  (List.range 4).foldl (fun acc dy =>
    (List.range 4).foldl (fun acc2 dx =>
      if shapeCell p.type p.rotation dy dx ≠ 0 then
        if 0 ≤ p.y + dy ∧ p.y + dy < 40 then
          acc2.set (p.y + dy).toNat
            (acc2.getD (p.y + dy).toNat 0 ||| (1 <<< (p.x + dx).toNat))
        else acc2
      else acc2) acc) pf

/-- The inner loop of `clearLines` for one cleared row index: shift every row
above it down one and zero row 39.  On the 40-row board this is exactly
deleting the row and appending an empty row at the top. -/
def removeRow (pf : List ℕ) (line : ℕ) : List ℕ := pf.eraseIdx line ++ [0]

/-- `clearLines`: collect the indices of full rows (bitmask `0x3FF`) bottom
to top, then process them in reversed (top to bottom) order; returns the
number of cleared rows and the new playfield. -/
def clearLines (pf : List ℕ) : ℕ × List ℕ :=
  ((List.range 40).filter (fun y => pf.getD y 0 = 0x3FF) |>.length,
   ((List.range 40).filter (fun y => pf.getD y 0 = 0x3FF)).reverse.foldl removeRow pf)

/-- `checkTSpin`: T pieces only; count the four diagonal corners of the 3×3
footprint that are occupied or out of bounds and require at least 3. -/
def checkTSpin (pf : List ℕ) (p : PieceData) : Bool :=
  if p.type ≠ 2 then false
  else
    let corners : List (ℤ × ℤ) :=
      [(p.x, p.y), (p.x + 2, p.y), (p.x, p.y + 2), (p.x + 2, p.y + 2)]
    let filled : ℕ := corners.foldl (fun n c =>
      if c.1 < (0 : ℤ) ∨ (10 : ℤ) ≤ c.1 ∨ c.2 < (0 : ℤ) ∨
          (c.2 < (40 : ℤ) ∧ (pf.getD c.2.toNat 0 &&& (1 <<< c.1.toNat)) ≠ 0) then n + 1 else n) 0
    decide (3 ≤ filled)

/-- `updateScore`.  `Math.floor(b * 1.5)` on an integral score is exactly
`3 * b / 2` in floor division (the doubles involved stay below `2^53`). -/
def updateScore (s : GameState) (linesCleared : ℕ) (isTSpin : Bool) : GameState :=
  if linesCleared = 0 then { s with combo := 0 }
  else
    let level := s.level
    let finish := fun (s1 : GameState) (base : ℕ) =>
      let base2 := if 0 < s1.combo then base + 50 * s1.combo * level else base
      let s2 := { s1 with combo := s1.combo + 1 }
      let s3 := { s2 with score := s2.score + base2, lines := s2.lines + linesCleared }
      { s3 with level := min (s3.lines / 10 + 1) 15 }
    if isTSpin then
      let b0 := (([0, 800, 1200, 1600] : List ℕ).getD (min linesCleared 3) 0) * level
      let b1 := if 0 < s.b2b then 3 * b0 / 2 else b0
      finish { s with b2b := s.b2b + 1 } b1
    else
      let b0 := (s.preset.scoreTable.getD linesCleared 0) * level
      if linesCleared = 4 then
        let b1 := if 0 < s.b2b then 3 * b0 / 2 else b0
        finish { s with b2b := s.b2b + 1 } b1
      else
        finish { s with b2b := 0 } b0

/-- The hard-drop probe `while (canPlace({...piece, y: piece.y - d - 1})) d++`,
written as fuel-bounded recursion.  For the real piece templates the fall is
bounded by `piece.y + 4`, so the fuel passed by `phaseHard` is never
exhausted; for a shape-less (invalid) piece type the source loop would not
terminate at all. -/
def hardDropLoop (pf : List ℕ) (p : PieceData) : ℕ → ℕ
  | 0 => 0
  | fuel + 1 =>
    if canPlace pf { p with y := p.y - 1 } then
      1 + hardDropLoop pf { p with y := p.y - 1 } fuel
    else 0

/-!  `TetrisEngine.update`, split phase by phase in source order.  The body
of the source captures `const piece = this.state.currentPiece!` once, before
any input handling; every later movement, gravity and lock computation below
therefore receives that captured `piece` as an explicit argument even when
`state.currentPiece` has already been replaced in the same frame. -/

/-- Rotation with wall-kick resolution (`if (inputs.rotate) ...`). -/
def phaseRotate (e : TetrisEngine) (i : InputState) (piece : PieceData) :
    TetrisEngine × Bool :=
  if i.rotate then
    match tryKick e.state.playfield piece ((piece.rotation + 1) % 4) with
    | some kicked => (withGS e { e.state with currentPiece := some kicked }, true)
    | none => (e, false)
  else (e, false)

/-- The hold branch (`if (inputs.hold && this.state.canHold) ...`).  When the
hold slot is empty the current piece is stashed and `spawnPiece()` runs; note
that `spawnPiece` sets `canHold` back to `true` after this branch wrote
`false`.  When the slot is occupied the two pieces swap. -/
def phaseHold (e : TetrisEngine) (i : InputState) (piece : PieceData) (moved : Bool) :
    TetrisEngine × Bool :=
  if i.hold && e.state.canHold then
    match e.state.holdPiece with
    | none =>
      ((spawnPiece (withGS e { e.state with
          holdPiece := some piece.type, currentPiece := none, canHold := false })).2, true)
    | some temp =>
      (withGS e { e.state with
          holdPiece := some piece.type,
          currentPiece := some ⟨temp, 3, 20, 0⟩,
          canHold := false }, true)
  else (e, moved)

/-- Horizontal movement with DAS/ARR timing.  A newly pressed direction moves
immediately and resets both timers; a held direction accumulates DAS and then
ARR; releasing both directions resets direction and timers. -/
def phaseDAS (e : TetrisEngine) (dt : ℚ) (i : InputState) (piece : PieceData)
    (moved : Bool) : TetrisEngine × Bool :=
  if i.left || i.right then
    let direction : ℤ := if i.left then -1 else 1
    if e.state.dasDirection ≠ direction then
      let s := { e.state with dasDirection := direction, dasTimer := 0, arrTimer := 0 }
      if canPlace s.playfield { piece with x := piece.x + direction } then
        (withGS e { s with currentPiece := some { piece with x := piece.x + direction } }, true)
      else (withGS e s, moved)
    else
      let s : GameState := { e.state with dasTimer := e.state.dasTimer + dt }
      if s.preset.das ≤ s.dasTimer then
        let s2 : GameState := { s with arrTimer := s.arrTimer + dt }
        if s2.preset.arr ≤ s2.arrTimer then
          if canPlace s2.playfield { piece with x := piece.x + direction } then
            (withGS e { s2 with
                currentPiece := some { piece with x := piece.x + direction },
                arrTimer := 0 }, true)
          else (withGS e { s2 with arrTimer := 0 }, moved)
        else (withGS e s2, moved)
      else (withGS e s, moved)
  else
    (withGS e { e.state with dasDirection := 0, dasTimer := 0, arrTimer := 0 }, moved)

/-- Soft drop: one cell down from the captured piece, +1 score on success. -/
def phaseSoft (e : TetrisEngine) (i : InputState) (piece : PieceData) (moved : Bool) :
    TetrisEngine × Bool :=
  if i.softDrop then
    if canPlace e.state.playfield { piece with y := piece.y - 1 } then
      (withGS e { e.state with
          currentPiece := some { piece with y := piece.y - 1 },
          score := e.state.score + 1 }, true)
    else (e, moved)
  else (e, moved)

/-- Hard drop: probe the maximal fall distance from the captured piece,
teleport there, award two points per cell, and set the lock timer to the full
lock delay. -/
def phaseHard (e : TetrisEngine) (i : InputState) (piece : PieceData) (moved : Bool) :
    TetrisEngine × Bool :=
  if i.hardDrop then
    let d := hardDropLoop e.state.playfield piece (piece.y + 44).toNat
    (withGS e { e.state with
        currentPiece := some { piece with y := piece.y - d },
        score := e.state.score + d * 2,
        lockTimer := e.state.preset.lockDelay }, true)
  else (e, moved)

/-- Gravity: accumulate `dropTimer`; at the level-indexed interval attempt a
one-cell fall of the captured piece and reset the accumulator either way. -/
def phaseGravity (e : TetrisEngine) (dt : ℚ) (piece : PieceData) : TetrisEngine :=
  let s : GameState := { e.state with dropTimer := e.state.dropTimer + dt }
  if s.preset.gravity.getD (min (s.level - 1) (s.preset.gravity.length - 1)) 0 ≤ s.dropTimer then
    if canPlace s.playfield { piece with y := piece.y - 1 } then
      withGS e { s with currentPiece := some { piece with y := piece.y - 1 }, dropTimer := 0 }
    else withGS e { s with dropTimer := 0 }
  else withGS e s

/-- Lock-delay evaluation on the captured piece: while it cannot fall the
lock timer accumulates, and on expiry (or a hard-drop input) the captured
piece is locked in, T-spin is evaluated, full lines are cleared, the score is
updated and the active piece is cleared.  If the captured piece can still
fall, any accepted move this frame resets the lock timer. -/
def phaseLock (e : TetrisEngine) (dt : ℚ) (i : InputState) (piece : PieceData)
    (moved : Bool) : TetrisEngine × GameResult :=
  if !canPlace e.state.playfield { piece with y := piece.y - 1 } then
    let s : GameState := { e.state with lockTimer := e.state.lockTimer + dt }
    if s.preset.lockDelay ≤ s.lockTimer ∨ i.hardDrop = true then
      let isTSpin := checkTSpin s.playfield piece
      let pf2 := (clearLines (placePiece s.playfield piece)).2
      let lc := (clearLines (placePiece s.playfield piece)).1
      let s2 := updateScore { s with playfield := pf2 } lc isTSpin
      (withGS e { s2 with currentPiece := none },
       if 0 < lc then GameResult.linesCleared lc isTSpin else GameResult.cont)
    else (withGS e s, GameResult.cont)
  else if moved then (withGS e { e.state with lockTimer := 0 }, GameResult.cont)
  else (e, GameResult.cont)

/-- The input-handling tail of `update`, entered with an active piece in
place; `piece` is the captured start-of-frame piece value. -/
def runFrame (e : TetrisEngine) (dt : ℚ) (i : InputState) : TetrisEngine × GameResult :=
  match e.state.currentPiece with
  | none => (e, GameResult.cont)
  | some piece =>
    let r1 := phaseRotate e i piece
    let r2 := phaseHold r1.1 i piece r1.2
    let r3 := phaseDAS r2.1 dt i piece r2.2
    let r4 := phaseSoft r3.1 i piece r3.2
    let r5 := phaseHard r4.1 i piece r4.2
    let e6 := phaseGravity r5.1 dt piece
    phaseLock e6 dt i piece r5.2

/-- `TetrisEngine.update(deltaTime, inputs)`: game-over short-circuit, time
accumulation, spawn-if-absent (with its own terminal result on a blocked
spawn), then the per-frame input pipeline. -/
def updateE (e : TetrisEngine) (dt : ℚ) (i : InputState) : TetrisEngine × GameResult :=
  if e.state.gameOver then (e, GameResult.gameOver)
  else
    let e1 := withGS e { e.state with time := e.state.time + dt }
    match e1.state.currentPiece with
    | none =>
      if (spawnPiece e1).1 then runFrame (spawnPiece e1).2 dt i
      else ((spawnPiece e1).2, GameResult.gameOver)
    | some _ => runFrame e1 dt i

/-- `createInitialState(presetName, seed)`. -/
def createInitialState (presetName : String) (seed : ℕ) : GameState :=
  { playfield := List.replicate 40 0
    currentPiece := none
    nextQueue := []
    holdPiece := none
    canHold := true
    score := 0
    lines := 0
    level := 1
    combo := 0
    b2b := 0
    garbageQueue := []
    lockTimer := 0
    dropTimer := 0
    dasTimer := 0
    arrTimer := 0
    dasDirection := 0
    gameOver := false
    time := 0
    seed := seed
    rng := ⟨seed⟩
    preset := lookupPreset presetName }

/-- The `TetrisEngine` constructor: initial state, `fillBag()`,
`spawnPiece()`. -/
def mkEngine (presetName : String) (seed : ℕ) : TetrisEngine :=
  (spawnPiece (fillBag ⟨createInitialState presetName seed, []⟩)).2

/-- `GameStateSnapshot`, the serialized form consumed by the rollback layer;
it carries every state field except `seed` and the preset, plus the raw RNG
word and the bag contents. -/
structure GameStateSnapshot where
  playfield : List ℕ
  currentPiece : Option PieceData
  nextQueue : List ℕ
  holdPiece : Option ℕ
  canHold : Bool
  score : ℕ
  lines : ℕ
  level : ℕ
  combo : ℕ
  b2b : ℕ
  garbageQueue : List ℕ
  lockTimer : ℚ
  dropTimer : ℚ
  dasTimer : ℚ
  arrTimer : ℚ
  dasDirection : ℤ
  gameOver : Bool
  time : ℚ
  rngState : ℕ
  bag : List ℕ
deriving DecidableEq

/-- `serializeState()`. -/
def serializeState (e : TetrisEngine) : GameStateSnapshot :=
  { playfield := e.state.playfield
    currentPiece := e.state.currentPiece
    nextQueue := e.state.nextQueue
    holdPiece := e.state.holdPiece
    canHold := e.state.canHold
    score := e.state.score
    lines := e.state.lines
    level := e.state.level
    combo := e.state.combo
    b2b := e.state.b2b
    garbageQueue := e.state.garbageQueue
    lockTimer := e.state.lockTimer
    dropTimer := e.state.dropTimer
    dasTimer := e.state.dasTimer
    arrTimer := e.state.arrTimer
    dasDirection := e.state.dasDirection
    gameOver := e.state.gameOver
    time := e.state.time
    rngState := e.state.rng.state
    bag := e.bag }

/-- `loadState(snapshot)`: restore every serialized field; `seed` and the
preset are not part of the snapshot and keep the receiving engine's values. -/
def loadState (e : TetrisEngine) (snap : GameStateSnapshot) : TetrisEngine :=
  { state := { e.state with
      playfield := snap.playfield
      currentPiece := snap.currentPiece
      nextQueue := snap.nextQueue
      holdPiece := snap.holdPiece
      canHold := snap.canHold
      score := snap.score
      lines := snap.lines
      level := snap.level
      combo := snap.combo
      b2b := snap.b2b
      garbageQueue := snap.garbageQueue
      lockTimer := snap.lockTimer
      dropTimer := snap.dropTimer
      dasTimer := snap.dasTimer
      arrTimer := snap.arrTimer
      dasDirection := snap.dasDirection
      gameOver := snap.gameOver
      time := snap.time
      rng := ⟨snap.rngState⟩ }
    bag := snap.bag }

/-- `clone()`: the source allocates a fresh engine and overwrites every
modelled field with a deep copy, so under value semantics it is the
identity. -/
def cloneE (e : TetrisEngine) : TetrisEngine := e

/-- The serialized snapshots observed after each of a list of `update`
calls. -/
def snapTrace (e : TetrisEngine) : List (ℚ × InputState) → List GameStateSnapshot
  | [] => []
  | f :: rest => serializeState (updateE e f.1 f.2).1 :: snapTrace (updateE e f.1 f.2).1 rest

/-!  The rollback netcode coordinator, `RollbackNetcode` in
src/lib/multiplayer/netcode.ts.  JS `Map`s iterate in insertion order, so the
player map is modelled as an association list in insertion order; the
frame-history map is only ever read through `get`, so it is modelled as a
function.  The diagnostic fields `lastUpdateTime` (a `Date.now()` timestamp)
and the per-frame input checksum are write-only — nothing in the source ever
reads them back — and are omitted from the model. -/

/-- Association-list lookup, the `Map.get` of the source. -/
def lookupA {α : Type} (l : List (String × α)) (k : String) : Option α :=
  (l.find? fun q => q.1 == k).map fun q => q.2

/-- Association-list `Map.set`: replace in place when the key exists,
append otherwise. -/
def setA {α : Type} (l : List (String × α)) (k : String) (v : α) : List (String × α) :=
  if (l.find? fun q => q.1 == k).isSome then
    l.map fun q => if q.1 == k then (k, v) else q
  else l ++ [(k, v)]

/-- Per-player record `PlayerState`; the sparse frame-indexed input array is
modelled as a function to `Option`. -/
structure PlayerState where
  id : String
  engine : TetrisEngine
  inputs : ℕ → Option InputState
  confirmed : Bool
  ping : ℕ

/-- A stored `GameFrame`: the per-player inputs used for the frame and the
snapshots captured immediately before simulating it. -/
structure GameFrame where
  frame : ℕ
  inputs : List (String × InputState)
  snapshots : List (String × GameStateSnapshot)

/-- The coordinator state of `RollbackNetcode`. -/
structure Coordinator where
  frameHistory : ℕ → Option GameFrame
  players : List (String × PlayerState)
  currentFrame : ℕ
  confirmedFrame : ℕ
  localPlayerId : String

/-- `maxRollbackFrames`. -/
def maxRollbackFrames : ℕ := 8

/-- The `RollbackNetcode` constructor. -/
def mkCoordinator (localPlayerId : String) : Coordinator :=
  ⟨fun _ => none, [], 0, 0, localPlayerId⟩

/-- Apply a function to one player's record. -/
def modifyPlayer (c : Coordinator) (pid : String) (f : PlayerState → PlayerState) :
    Coordinator :=
  { c with players := c.players.map fun q => if q.1 == pid then (q.1, f q.2) else q }

/-- `addPlayer(playerId, engine)`: register a clone of the given engine. -/
def addPlayer (c : Coordinator) (pid : String) (e : TetrisEngine) : Coordinator :=
  { c with players := setA c.players pid ⟨pid, cloneE e, fun _ => none, false, 0⟩ }

/-- The scan of `findLastConfirmedInput`:
`for (let i = currentFrame; i >= start; i--)` returning the first frame with
a recorded input, else `start`.  The fuel covers the range exactly. -/
def findDown (inp : ℕ → Option InputState) (start : ℕ) : ℕ → ℕ → ℕ
  | _, 0 => start
  | i, fuel + 1 =>
    if (inp i).isSome then i
    else if i = start then start
    else findDown inp start (i - 1) fuel

/-- `findLastConfirmedInput(playerId)`; `start` is
`Math.max(0, currentFrame - maxRollbackFrames)`, which is `Nat` truncated
subtraction. -/
def findLastConfirmedInput (c : Coordinator) (pid : String) : ℕ :=
  match lookupA c.players pid with
  | none => c.currentFrame
  | some p =>
    findDown p.inputs (c.currentFrame - maxRollbackFrames) c.currentFrame
      (c.currentFrame - (c.currentFrame - maxRollbackFrames) + 1)

/-- `rollbackToFrame(frame)`: with no saved frame, warn and return without
rolling back; otherwise restore every player from its stored snapshot
(falling back to cloning the live engine when its snapshot is missing) and —
crucially — overwrite `currentFrame` with the rollback target. -/
def rollbackToFrame (c : Coordinator) (frame : ℕ) : Coordinator :=
  match c.frameHistory frame with
  | none => c
  | some saved =>
    { c with
      players := c.players.map fun q =>
        match lookupA saved.snapshots q.1 with
        | some snap => (q.1, { q.2 with engine := loadState q.2.engine snap })
        | none => (q.1, { q.2 with engine := cloneE q.2.engine })
      currentFrame := frame }

/-- `calculateGarbageAmount(lines, isTSpin)`. -/
def calculateGarbageAmount (lines : ℕ) (isTSpin : Bool) : ℕ :=
  let g := ([0, 0, 1, 2, 4] : List ℕ).getD (min lines 4) 0
  if isTSpin then g + lines else g

/-- `sendGarbage(target, amount)`: push `max(1, min(10, amount))` markers
onto the target engine's garbage queue.  The marker values are
`Math.floor(Math.random() * 10)` hole positions — an external randomness
source that no reader of `garbageQueue` ever consumes — and are modelled as
zeros. -/
def sendGarbage (c : Coordinator) (targetId : String) (amount : ℕ) : Coordinator :=
  modifyPlayer c targetId fun q =>
    let s2 : GameState := { q.engine.state with
      garbageQueue := q.engine.state.garbageQueue ++
        List.replicate (max 1 (min 10 amount)) 0 }
    { q with engine := withGS q.engine s2 }

/-- `handleLineClears(playerId, lines, isTSpin)`: compute the garbage amount
and enqueue it into every other player's engine. -/
def handleLineClears (c : Coordinator) (pid : String) (lines : ℕ) (isTSpin : Bool) :
    Coordinator :=
  let garbage := calculateGarbageAmount lines isTSpin
  if garbage = 0 then c
  else c.players.foldl (fun cc q => if q.1 == pid then cc else sendGarbage cc q.1 garbage) c

/-- One player's share of the simulation loop inside `simulateFrame`: step
the engine with the gathered inputs and, on a line-clear result, distribute
garbage. -/
def stepPlayer (c : Coordinator) (pid : String) (frameInputs : List (String × InputState))
    (dt : ℚ) : Coordinator :=
  match lookupA c.players pid with
  | none => c
  | some p =>
    let stepped := updateE p.engine dt ((lookupA frameInputs pid).getD neutralInput)
    let c2 := modifyPlayer c pid fun q => { q with engine := stepped.1 }
    match stepped.2 with
    | GameResult.linesCleared lines isT => handleLineClears c2 pid lines isT
    | _ => c2

/-- `simulateFrame(frame)`: gather inputs (missing means neutral), snapshot
every engine before stepping, step every engine in player order, store the
frame record, evict history older than twice the rollback window, and
advance the confirmed frame heuristically. -/
def simulateFrame (c : Coordinator) (frame : ℕ) : Coordinator :=
  let dt : ℚ := 1000 / 60
  let frameInputs := c.players.map fun q => (q.1, (q.2.inputs frame).getD neutralInput)
  let snapshots := c.players.map fun q => (q.1, serializeState q.2.engine)
  let c2 := c.players.foldl (fun cc q => stepPlayer cc q.1 frameInputs dt) c
  let gf : GameFrame := ⟨frame, frameInputs, snapshots⟩
  { c2 with
    frameHistory := fun k =>
      if k < frame - maxRollbackFrames * 2 then none
      else if k = frame then some gf
      else c2.frameHistory k
    confirmedFrame := max c2.confirmedFrame (frame - maxRollbackFrames) }

/-- `runPrediction()`: the earliest divergence point is the minimum over all
players of their last confirmed input frame.  When it precedes the current
frame the coordinator rolls back and then resimulates
`for (let f = earliest; f <= this.currentFrame; f++)` — but `rollbackToFrame`
just overwrote `this.currentFrame` (unless it early-returned for a missing
snapshot), and `simulateFrame` never changes it, so the loop bound is the
value after the rollback. -/
def runPrediction (c : Coordinator) : Coordinator :=
  let earliest := c.players.foldl
    (fun acc q => min (findLastConfirmedInput c q.1) acc) c.currentFrame
  if earliest < c.currentFrame then
    let c2 := rollbackToFrame c earliest
    (List.range (c2.currentFrame + 1 - earliest)).foldl
      (fun cc k => simulateFrame cc (earliest + k)) c2
  else
    simulateFrame c c.currentFrame

/-- `update(deltaTime, localInputs)`: record the local input for the current
frame, run prediction, advance the frame counter.  The `deltaTime` argument
is unused by the source (each simulated frame uses the fixed `1000 / 60`). -/
def updateCoord (c : Coordinator) (_deltaTime : ℚ) (localInputs : InputState) :
    Coordinator :=
  let c1 :=
    match lookupA c.players c.localPlayerId with
    | some _ =>
      modifyPlayer c c.localPlayerId fun p =>
        { p with inputs := fun k => if k = c.currentFrame then some localInputs else p.inputs k }
    | none => c
  let c2 := runPrediction c1
  { c2 with currentFrame := c2.currentFrame + 1 }

/-- `onRemoteInput(playerId, frame, inputs)`: record the input and re-run
prediction when the frame lies in the past. -/
def onRemoteInput (c : Coordinator) (pid : String) (frame : ℕ) (inputs : InputState) :
    Coordinator :=
  match lookupA c.players pid with
  | none => c
  | some _ =>
    let c1 := modifyPlayer c pid fun p =>
      { p with inputs := fun k => if k = frame then some inputs else p.inputs k }
    if frame < c1.currentFrame then runPrediction c1 else c1

/-- `getPlayerEngine(playerId)`. -/
def getPlayerEngine (c : Coordinator) (pid : String) : Option TetrisEngine :=
  (lookupA c.players pid).map fun p => p.engine

/-!  Concrete scenario used by several claims: the preset and seed of the
repository test-suite (`new TetrisEngine('guideline', 12345)`).  Its first
spawn yields the I piece (type 0) at (3, 20) with lookahead queue
[6, 2, 4, 3, 5]. -/

/-- The engine of the repository tests: guideline preset, seed 12345. -/
def demoEngine : TetrisEngine := mkEngine "guideline" 12345

/-- Outputs of the next `n` calls of `SeededRNG.next`. -/
def rngOutputs (r : SeededRNG) : ℕ → List ℕ
  | 0 => []
  | n + 1 => r.next.1 :: rngOutputs r.next.2 n

/-- The generator after `k` calls of `SeededRNG.next`. -/
def rngIter (r : SeededRNG) : ℕ → SeededRNG
  | 0 => r
  | k + 1 => rngIter r.next.2 k

end Tetris

namespace Tetris

set_option maxRecDepth 40000

/-- C8.  For every generator state `s`, `next()` returns exactly
`(s * 1664525 + 1013904223) mod 2^32`, a 32-bit value that is also the new
internal state; and a `clone()` taken after `K` calls produces the same
subsequent output sequence as the original generator from that point on. -/
theorem rng_lcg_step_and_clone (s : ℕ) (k n : ℕ) :
    (SeededRNG.next ⟨s⟩).1 = (s * 1664525 + 1013904223) % 2 ^ 32 ∧
    (SeededRNG.next ⟨s⟩).1 < 2 ^ 32 ∧
    (SeededRNG.next ⟨s⟩).2 = ⟨(SeededRNG.next ⟨s⟩).1⟩ ∧
    rngOutputs ((rngIter ⟨s⟩ k).clone) n = rngOutputs (rngIter ⟨s⟩ k) n := by
  refine ⟨by norm_num [SeededRNG.next], ?_, rfl, rfl⟩
  have : (2 : ℕ) ^ 32 = 4294967296 := by norm_num
  rw [this]
  exact Nat.mod_lt _ (by norm_num)

/-- C1.  Engine-level determinism: two engines constructed with the same
preset name and seed and fed the identical sequence of `update` calls report
identical `serializeState()` snapshots after every call.  In the embedding
the update step is a pure function of the state, so the two runs coincide
definitionally; the embedding itself witnesses that `update` consults no
clock, platform randomness or other ambient state. -/
theorem engine_determinism_two_runs (presetName : String) (seed : ℕ)
    (e₁ e₂ : TetrisEngine) (h₁ : e₁ = mkEngine presetName seed)
    (h₂ : e₂ = mkEngine presetName seed) (frames : List (ℚ × InputState)) :
    snapTrace e₁ frames = snapTrace e₂ frames := by
  rw [h₁, h₂]

/-- Witness for C1 at the test-suite constructor arguments and one
hard-drop frame. -/
theorem engine_determinism_two_runs_witness :
    snapTrace (mkEngine "guideline" 12345) [(100, { neutralInput with hardDrop := true })] =
      snapTrace (mkEngine "guideline" 12345) [(100, { neutralInput with hardDrop := true })] :=
  engine_determinism_two_runs "guideline" 12345 _ _ rfl rfl _

/-- C7.  Once `gameOver` is set, `update` returns the terminal result
and the whole engine value — every state field — is left unchanged, for any
`deltaTime` and any inputs. -/
theorem game_over_update_idempotent (e : TetrisEngine) (dt : ℚ) (i : InputState)
    (h : e.state.gameOver = true) :
    updateE e dt i = (e, GameResult.gameOver) := by
  simp [updateE, h]

/-- Witness for C7: a game-over engine is returned untouched even under a
large `deltaTime` and a fully pressed input record. -/
theorem game_over_update_idempotent_witness :
    updateE (withGS demoEngine { demoEngine.state with gameOver := true }) 100
        ⟨true, true, true, true, true, true⟩ =
      (withGS demoEngine { demoEngine.state with gameOver := true }, GameResult.gameOver) :=
  game_over_update_idempotent _ 100 ⟨true, true, true, true, true, true⟩ rfl

/-- C3 (code bug).  Hard drop on the first frame of the test-suite engine:
the I piece is relocated from (3, 20) to the floor (y = −1, a drop of 21
cells) and the score rises by exactly 2 × 21 = 42, but the forced lock the
source comment announces (`lockTimer = lockDelay // Force lock`) never
happens: the lock test re-reads the stale start-of-frame piece, which can
still fall, so the lock branch is skipped, the `moved` branch resets
`lockTimer` to 0, nothing is written into the playfield, and the active
piece is still present when `update` returns `continue`. -/
theorem hard_drop_no_same_frame_lock :
    (updateE demoEngine (50 / 3) { neutralInput with hardDrop := true }).1.state.currentPiece =
      some ⟨0, 3, -1, 0⟩ ∧
    (updateE demoEngine (50 / 3) { neutralInput with hardDrop := true }).1.state.score = 42 ∧
    (updateE demoEngine (50 / 3) { neutralInput with hardDrop := true }).1.state.lockTimer = 0 ∧
    (updateE demoEngine (50 / 3) { neutralInput with hardDrop := true }).1.state.playfield =
      List.replicate 40 0 ∧
    (updateE demoEngine (50 / 3) { neutralInput with hardDrop := true }).2 =
      GameResult.cont := by
  with_unfolding_all decide

/-- The test engine after one frame holding the hold button. -/
def heldOnce : TetrisEngine :=
  (updateE demoEngine (50 / 3) { neutralInput with hold := true }).1

/-- The test engine after a second frame holding the hold button. -/
def heldTwice : TetrisEngine :=
  (updateE heldOnce (50 / 3) { neutralInput with hold := true }).1

/-- C4 (code bug).  First hold on the test-suite engine stashes the I piece
(type 0) — but the replacement spawn inside the hold branch immediately sets
`canHold` back to `true`, so a second hold before any lock swaps again: the
hold slot changes from piece 0 to piece 6 and the active piece changes back
to the stashed type 0.  The spec requires the second hold to have no
additional effect. -/
theorem hold_immediately_reenabled_by_spawn :
    heldOnce.state.holdPiece = some 0 ∧
    heldOnce.state.canHold = true ∧
    heldOnce.state.currentPiece = some ⟨6, 3, 20, 0⟩ ∧
    heldTwice.state.holdPiece = some 6 ∧
    heldTwice.state.currentPiece = some ⟨0, 3, 20, 0⟩ := by
  with_unfolding_all decide

/-- A coordinator over two copies of the test engine, local player first —
the setup of the repository netcode test. -/
def demoCoord : Coordinator :=
  addPlayer (addPlayer (mkCoordinator "p1") "p1" demoEngine) "p2" demoEngine

/-- The demo coordinator after two `update` calls with neutral local input. -/
def coordAfterTwo : Coordinator :=
  updateCoord (updateCoord demoCoord (50 / 3) neutralInput) (50 / 3) neutralInput

/-- Reference run: one engine stepped twice with the coordinator frame time
`1000 / 60` and neutral inputs — the single, non-rollback simulation both
players should equal after two coordinator frames. -/
def refTwoFrames : TetrisEngine :=
  (updateE (updateE demoEngine (1000 / 60) neutralInput).1 (1000 / 60) neutralInput).1

/-- C2 (code bug).  At the second coordinator update the remote player has
no recorded input, so the earliest divergence point is frame 0, strictly
before the current frame 1, and a rollback is triggered with the snapshot of
frame 0 available.  The claim then requires frames 0 and 1 to be resimulated
so that the result equals the two-frame single simulation.  Instead,
`rollbackToFrame` overwrites `currentFrame` with the rollback target and the
resimulation loop reads that overwritten bound, so only frame 0 is
resimulated: after two updates the frame counter is still 1 and both engines
have advanced a single frame (time 50/3 instead of 100/3), differing from
the reference run's snapshot. -/
theorem rollback_resimulation_truncated :
    coordAfterTwo.currentFrame = 1 ∧
    (getPlayerEngine coordAfterTwo "p1").map (fun e => e.state.time) = some (50 / 3) ∧
    refTwoFrames.state.time = 100 / 3 ∧
    (getPlayerEngine coordAfterTwo "p1").map serializeState ≠
      some (serializeState refTwoFrames) ∧
    (getPlayerEngine coordAfterTwo "p2").map serializeState ≠
      some (serializeState refTwoFrames) := by
  with_unfolding_all decide

/-- C5 (counterexample).  Seven consecutive draws that straddle a bag
boundary need not contain every type once: for seed 12345 the draws are
0, 6, 2, 4, 3, 5, 1, 3, …, and the window of draws 2–8 is
[6, 2, 4, 3, 5, 1, 3], in which type 3 appears twice (and type 0 not at
all). -/
theorem seven_consecutive_draws_straddling_bags :
    ((drawList ([], ⟨12345⟩) 8).1.drop 1).length = 7 ∧
    ((drawList ([], ⟨12345⟩) 8).1.drop 1).count 3 = 2 ∧
    ((drawList ([], ⟨12345⟩) 8).1.drop 1).count 0 = 0 := by
  decide

/-!  The amended 7-bag property: every window of 7 draws aligned to bag
boundaries is a permutation of the 7 piece types.  The shuffle is a chain of
in-range swaps, each of which preserves the multiset of the bag. -/

/-- Replacing the entry at `m` and re-inserting the old entry at the head is
a permutation of inserting the replacement at the head. -/
theorem set_cons_perm (t : List ℕ) : ∀ (m a d : ℕ), m < t.length →
    (t.getD m d :: t.set m a).Perm (a :: t) := by
  induction t with
  | nil => intro m a d hm; simp at hm
  | cons b t2 ih =>
    intro m a d hm
    cases m with
    | zero => simpa using List.Perm.swap a b t2
    | succ m =>
      simp only [List.getD_cons_succ, List.set_cons_succ]
      exact (List.Perm.swap b (t2.getD m d) (t2.set m a)).trans
        (((ih m a d (by simpa using hm)).cons b).trans (List.Perm.swap a b t2))

/-- The two-sided `set` swap preserves the multiset of the list. -/
theorem set_set_perm_getD (l : List ℕ) : ∀ (i j d : ℕ), i < l.length → j < l.length →
    ((l.set i (l.getD j d)).set j (l.getD i d)).Perm l := by
  induction l with
  | nil => intro i j d hi _; simp at hi
  | cons a t ih =>
    intro i j d hi hj
    cases i with
    | zero =>
      cases j with
      | zero => simp
      | succ m =>
        simp only [List.getD_cons_zero, List.getD_cons_succ, List.set_cons_zero,
          List.set_cons_succ]
        exact set_cons_perm t m a d (by simpa using hj)
    | succ n =>
      cases j with
      | zero =>
        simp only [List.getD_cons_zero, List.getD_cons_succ, List.set_cons_zero,
          List.set_cons_succ]
        exact set_cons_perm t n a d (by simpa using hi)
      | succ m =>
        simp only [List.getD_cons_succ, List.set_cons_succ]
        exact (ih n m d (by simpa using hi) (by simpa using hj)).cons a

/-- The JS swap is a permutation whenever both indices are in range. -/
theorem listSwap_perm (l : List ℕ) (i j : ℕ) (hi : i < l.length) (hj : j < l.length) :
    (listSwap l i j).Perm l :=
  set_set_perm_getD l i j 0 hi hj

/-- `nextInt(max)` yields a value below `max`. -/
theorem nextInt_lt (r : SeededRNG) (m : ℕ) (hm : 0 < m) : (r.nextInt m).1 < m := by
  have hlt : (r.next).1 < 4294967296 := Nat.mod_lt _ (by norm_num)
  have hmul : (r.next).1 * m < m * 4294967296 := by
    calc (r.next).1 * m < 4294967296 * m := (Nat.mul_lt_mul_right hm).2 hlt
      _ = m * 4294967296 := Nat.mul_comm _ _
  exact (Nat.div_lt_iff_lt_mul (by norm_num)).2 hmul

/-- Every prefix of the Fisher–Yates loop keeps the bag a permutation of the
fresh bag and keeps its length 7. -/
theorem fyFoldAux (idxs : List ℕ) : ∀ (br : List ℕ × SeededRNG), br.1.length = 7 →
    (∀ i ∈ idxs, i < 7) →
    ((idxs.foldl fyStep br).1).Perm br.1 ∧ (idxs.foldl fyStep br).1.length = 7 := by
  induction idxs with
  | nil => intro br hlen _; exact ⟨List.Perm.refl _, hlen⟩
  | cons i rest ih =>
    intro br hlen hmem
    have hi : i < br.1.length := by rw [hlen]; exact hmem i (by simp)
    have hj : (br.2.nextInt (i + 1)).1 < br.1.length := by
      have := nextInt_lt br.2 (i + 1) (Nat.succ_pos i)
      omega
    have hp : (fyStep br i).1.Perm br.1 := listSwap_perm br.1 i _ hi hj
    have hl : (fyStep br i).1.length = 7 := by
      simpa [fyStep, listSwap] using hlen
    have hrec := ih (fyStep br i) hl (fun k hk => hmem k (by simp [hk]))
    exact ⟨hrec.1.trans hp, hrec.2⟩

/-- The refilled bag is a permutation of `[0..6]` of length 7. -/
theorem fyFold_perm (r : SeededRNG) :
    ((fyFold ([0, 1, 2, 3, 4, 5, 6], r)).1).Perm [0, 1, 2, 3, 4, 5, 6] ∧
    (fyFold ([0, 1, 2, 3, 4, 5, 6], r)).1.length = 7 :=
  fyFoldAux [6, 5, 4, 3, 2, 1] ([0, 1, 2, 3, 4, 5, 6], r) rfl (by decide)

/-- `drawList` returns as many draws as requested. -/
theorem drawList_length (n : ℕ) : ∀ br, (drawList br n).1.length = n := by
  induction n with
  | zero => intro br; rfl
  | succ n ih => intro br; simpa [drawList] using ih (drawStep br).2

/-- Splitting a run of draws at an intermediate point. -/
theorem drawList_append (m : ℕ) : ∀ (n : ℕ) (br : List ℕ × SeededRNG),
    (drawList br (m + n)).1 =
      (drawList br m).1 ++ (drawList (drawList br m).2 n).1 ∧
    (drawList br (m + n)).2 = (drawList (drawList br m).2 n).2 := by
  induction m with
  | zero => intro n br; simp [drawList]
  | succ m ih =>
    intro n br
    have hshift : m + 1 + n = (m + n) + 1 := by omega
    rw [hshift]
    simp only [drawList]
    have := ih n (drawStep br).2
    exact ⟨by rw [this.1, List.cons_append], this.2⟩

/-- Draining a non-empty bag of length `n` in `n` draws yields its reversal
and leaves the bag empty with the generator untouched. -/
theorem drawList_drain : ∀ (n : ℕ) (l : List ℕ) (r : SeededRNG),
    l.length = n → l ≠ [] → drawList (l, r) n = (l.reverse, ([], r)) := by
  intro n
  induction n with
  | zero => intro l r hlen hne; cases l with
    | nil => exact absurd rfl hne
    | cons a t => simp at hlen
  | succ n ih =>
    intro l r hlen hne
    have hfill : fillBagPair (l, r) = (l, r) := by
      simp [fillBagPair, List.isEmpty_iff, hne]
    have hstep : drawStep (l, r) = (l.getLastD 0, (l.dropLast, r)) := by
      simp [drawStep, hfill]
    have hlast : l.getLastD 0 = l.getLast hne := by
      rw [List.getLastD_eq_getLast?, List.getLast?_eq_getLast l hne]
      rfl
    have hrev : l.reverse = l.getLast hne :: l.dropLast.reverse := by
      conv_lhs => rw [← List.dropLast_append_getLast hne]
      simp
    have hunf : drawList (l, r) (n + 1) =
        ((drawStep (l, r)).1 :: (drawList (drawStep (l, r)).2 n).1,
         (drawList (drawStep (l, r)).2 n).2) := rfl
    rw [hunf, hstep]
    dsimp only
    cases n with
    | zero =>
      have hdl : l.dropLast = [] := by
        have h2 := List.length_dropLast l
        rw [hlen] at h2
        exact List.eq_nil_of_length_eq_zero (by simpa using h2)
      rw [hdl, hlast, hrev]
      simp [drawList, hdl]
    | succ n2 =>
      have hdl : l.dropLast.length = n2 + 1 := by
        have h2 := List.length_dropLast l
        rw [hlen] at h2
        simpa using h2
      have hdne : l.dropLast ≠ [] := by
        intro hcon
        rw [hcon] at hdl
        simp at hdl
      rw [ih l.dropLast r hdl hdne, hlast, hrev]

/-- Seven draws from an empty bag refill it, drain the refill completely and
produce the reversed shuffled bag. -/
theorem seven_from_empty (r : SeededRNG) :
    drawList ([], r) 7 =
      ((fyFold ([0, 1, 2, 3, 4, 5, 6], r)).1.reverse,
       ([], (fyFold ([0, 1, 2, 3, 4, 5, 6], r)).2)) := by
  have hfp := fyFold_perm r
  have hne : (fyFold ([0, 1, 2, 3, 4, 5, 6], r)).1 ≠ [] := by
    intro hcon
    rw [hcon] at hfp
    simp at hfp
  have hfill : fillBagPair ([], r) =
      ((fyFold ([0, 1, 2, 3, 4, 5, 6], r)).1, (fyFold ([0, 1, 2, 3, 4, 5, 6], r)).2) := by
    simp [fillBagPair]
  have hstep : drawStep ([], r) = drawStep ((fyFold ([0, 1, 2, 3, 4, 5, 6], r)).1,
      (fyFold ([0, 1, 2, 3, 4, 5, 6], r)).2) := by
    have hfill2 : fillBagPair ((fyFold ([0, 1, 2, 3, 4, 5, 6], r)).1,
        (fyFold ([0, 1, 2, 3, 4, 5, 6], r)).2) =
        ((fyFold ([0, 1, 2, 3, 4, 5, 6], r)).1, (fyFold ([0, 1, 2, 3, 4, 5, 6], r)).2) := by
      simp [fillBagPair, List.isEmpty_iff, hne]
    rw [drawStep, drawStep, hfill, hfill2]
  have hdrain := drawList_drain 7 (fyFold ([0, 1, 2, 3, 4, 5, 6], r)).1
    (fyFold ([0, 1, 2, 3, 4, 5, 6], r)).2 hfp.2 hne
  calc drawList ([], r) 7
      = drawList ((fyFold ([0, 1, 2, 3, 4, 5, 6], r)).1,
          (fyFold ([0, 1, 2, 3, 4, 5, 6], r)).2) 7 := by
        simp only [drawList, hstep]
    _ = _ := hdrain

/-- After any multiple of 7 draws from a fresh (empty-bag) generator the bag
is empty again. -/
theorem bag_empty_after_multiple (k : ℕ) : ∀ r : SeededRNG,
    (drawList ([], r) (7 * k)).2.1 = [] := by
  induction k with
  | zero => intro r; rfl
  | succ k ih =>
    intro r
    have hmul : 7 * (k + 1) = 7 * k + 7 := by ring
    have happ := drawList_append (7 * k) 7 ([], r)
    have hsplit : (drawList ([], r) (7 * k)).2 =
        ((drawList ([], r) (7 * k)).2.1, (drawList ([], r) (7 * k)).2.2) := rfl
    rw [hmul, happ.2, hsplit, ih r, seven_from_empty]

/-- C5 (amended).  Windows of 7 draws aligned to bag boundaries (draws
`7k+1 … 7k+7` of a run that starts with an empty bag and is never externally
perturbed) are a permutation of the 7 piece types, so each type appears
exactly once in such a window. -/
theorem seven_bag_aligned_window (seed : ℕ) (k : ℕ) :
    (((drawList ([], ⟨seed⟩) (7 * k + 7)).1.drop (7 * k)).Perm [0, 1, 2, 3, 4, 5, 6]) ∧
    (∀ t, t < 7 → ((drawList ([], ⟨seed⟩) (7 * k + 7)).1.drop (7 * k)).count t = 1) := by
  have happ := drawList_append (7 * k) 7 ([], (⟨seed⟩ : SeededRNG))
  have hempty := bag_empty_after_multiple k (⟨seed⟩ : SeededRNG)
  have hsplit : (drawList ([], (⟨seed⟩ : SeededRNG)) (7 * k)).2 =
      ((drawList ([], (⟨seed⟩ : SeededRNG)) (7 * k)).2.1,
       (drawList ([], (⟨seed⟩ : SeededRNG)) (7 * k)).2.2) := rfl
  have hwin : (drawList ([], (⟨seed⟩ : SeededRNG)) (7 * k + 7)).1.drop (7 * k) =
      (fyFold ([0, 1, 2, 3, 4, 5, 6],
        (drawList ([], (⟨seed⟩ : SeededRNG)) (7 * k)).2.2)).1.reverse := by
    rw [happ.1, hsplit, hempty, seven_from_empty]
    have hlen := drawList_length (7 * k) ([], (⟨seed⟩ : SeededRNG))
    have hdrop := List.drop_left (drawList ([], (⟨seed⟩ : SeededRNG)) (7 * k)).1
      (fyFold ([0, 1, 2, 3, 4, 5, 6],
        (drawList ([], (⟨seed⟩ : SeededRNG)) (7 * k)).2.2)).1.reverse
    rw [hlen] at hdrop
    exact hdrop
  have hperm : ((drawList ([], (⟨seed⟩ : SeededRNG)) (7 * k + 7)).1.drop (7 * k)).Perm
      [0, 1, 2, 3, 4, 5, 6] := by
    rw [hwin]
    exact (List.reverse_perm _).trans (fyFold_perm _).1
  refine ⟨hperm, fun t ht => ?_⟩
  rw [hperm.count_eq]
  have : ∀ t : ℕ, t < 7 → ([0, 1, 2, 3, 4, 5, 6] : List ℕ).count t = 1 := by decide
  exact this t ht

/-- Witness for the amended C5 at seed 12345, second bag, piece type 3. -/
theorem seven_bag_aligned_window_witness :
    ((drawList ([], ⟨12345⟩) (7 * 1 + 7)).1.drop (7 * 1)).count 3 = 1 :=
  (seven_bag_aligned_window 12345 1).2 3 (by decide)

/-!  Line clearing.  The loop of `clearLines` processes the full-row indices
in descending order, and deleting rows top-down never disturbs the indices of
the full rows still to be processed, so the net effect is: keep the non-full
rows in order and pad with empty rows at the top. -/

/-- The positions of full rows, defined by structural recursion (used as a
proof-friendly view of the `for (y = 0; y < 40; y++)` collection loop). -/
def fullIdx : List ℕ → List ℕ
  | [] => []
  | r :: rest =>
    if r = 0x3FF then 0 :: (fullIdx rest).map (· + 1) else (fullIdx rest).map (· + 1)

/-- The range-and-filter collection of full-row indices agrees with the
recursive view. -/
theorem fullIdx_eq_filter (l : List ℕ) :
    (List.range l.length).filter (fun y => l.getD y 0 = 0x3FF) = fullIdx l := by
  induction l with
  | nil => rfl
  | cons a t ih =>
    have hmap : ((List.range t.length).map Nat.succ).filter
        (fun y => decide ((a :: t).getD y 0 = 0x3FF)) =
        ((List.range t.length).filter (fun y => decide (t.getD y 0 = 0x3FF))).map Nat.succ := by
      rw [List.filter_map]
      congr 1
    simp only [List.length_cons, List.range_succ_eq_map, List.filter_cons, hmap, ih]
    by_cases h : a = 0x3FF <;> simp [fullIdx, h, Nat.succ_eq_add_one]

/-- The recursive index list counts exactly the full rows. -/
theorem fullIdx_length (l : List ℕ) : (fullIdx l).length = l.count 0x3FF := by
  induction l with
  | nil => rfl
  | cons a t ih =>
    by_cases h : a = 0x3FF <;> simp [fullIdx, h, ih, List.count_cons]

/-- Removing rows at shifted indices leaves the first row in place. -/
theorem foldl_removeRow_shift (ds : List ℕ) : ∀ (x : ℕ) (l : List ℕ),
    (ds.map (· + 1)).foldl removeRow (x :: l) = x :: ds.foldl removeRow l := by
  induction ds with
  | nil => intro x l; rfl
  | cons d ds ih =>
    intro x l
    have hstep : removeRow (x :: l) (d + 1) = x :: removeRow l d := by
      simp [removeRow, List.eraseIdx_cons_succ]
    simp only [List.map_cons, List.foldl_cons, hstep]
    exact ih x (removeRow l d)

/-- Processing the full rows in descending order filters them out and pads
the top of the board with empty rows. -/
theorem foldl_removeRow_filter (l : List ℕ) :
    ((fullIdx l).reverse).foldl removeRow l =
      l.filter (fun r => decide (r ≠ 0x3FF)) ++ List.replicate (l.count 0x3FF) 0 := by
  induction l with
  | nil => rfl
  | cons a t ih =>
    by_cases h : a = 0x3FF
    · have hrev : (fullIdx (a :: t)).reverse =
          ((fullIdx t).reverse).map (· + 1) ++ [0] := by
        simp [fullIdx, h, List.map_reverse]
      rw [hrev, List.foldl_append, foldl_removeRow_shift, ih]
      have hrm : removeRow (a :: (t.filter (fun r => decide (r ≠ 0x3FF)) ++
          List.replicate (t.count 0x3FF) 0)) 0 =
          t.filter (fun r => decide (r ≠ 0x3FF)) ++
            List.replicate (t.count 0x3FF) 0 ++ [0] := by
        simp [removeRow]
      simp only [List.foldl_cons, List.foldl_nil, hrm]
      rw [List.append_assoc, ← List.replicate_succ']
      simp [h, List.count_cons]
    · have hrev : (fullIdx (a :: t)).reverse = ((fullIdx t).reverse).map (· + 1) := by
        simp [fullIdx, h, List.map_reverse]
      rw [hrev, foldl_removeRow_shift, ih]
      simp [h, List.count_cons]

/-- Each surviving row keeps its contents and drops by the number of full
rows below it; the landing index stays inside the filtered block. -/
theorem filter_getD_surviving (l : List ℕ) : ∀ (y : ℕ), y < l.length →
    l.getD y 0 ≠ 0x3FF →
    (l.filter (fun r => decide (r ≠ 0x3FF))).getD (y - (l.take y).count 0x3FF) 0 = l.getD y 0 ∧
    y - (l.take y).count 0x3FF < (l.filter (fun r => decide (r ≠ 0x3FF))).length := by
  induction l with
  | nil => intro y hy; simp at hy
  | cons a t ih =>
    intro y hy hne
    cases y with
    | zero =>
      have ha : a ≠ 0x3FF := by simpa using hne
      have hq : (a :: t).filter (fun r => decide (r ≠ 0x3FF)) =
          a :: t.filter (fun r => decide (r ≠ 0x3FF)) := by
        simp [List.filter_cons, ha]
      rw [hq]
      simp
    | succ y =>
      have hne2 : t.getD y 0 ≠ 0x3FF := by simpa using hne
      have hy2 : y < t.length := by simpa using hy
      have hcb : (t.take y).count 0x3FF ≤ y := by
        calc (t.take y).count 0x3FF ≤ (t.take y).length := List.count_le_length _ _
          _ ≤ y := by simp [List.length_take]
      by_cases h : a = 0x3FF
      · have hcnt : ((a :: t).take (y + 1)).count 0x3FF = (t.take y).count 0x3FF + 1 := by
          simp [List.take_succ_cons, List.count_cons, h]
        have hidx : y + 1 - ((a :: t).take (y + 1)).count 0x3FF =
            y - (t.take y).count 0x3FF := by
          rw [hcnt]; omega
        have hq : (a :: t).filter (fun r => decide (r ≠ 0x3FF)) =
            t.filter (fun r => decide (r ≠ 0x3FF)) := by
          simp [List.filter_cons, h]
        rw [hidx, hq]
        have hres := ih y hy2 hne2
        exact ⟨by simpa [List.getD_cons_succ] using hres.1, hres.2⟩
      · have hcnt : ((a :: t).take (y + 1)).count 0x3FF = (t.take y).count 0x3FF := by
          simp [List.take_succ_cons, List.count_cons, h]
        have hidx : y + 1 - ((a :: t).take (y + 1)).count 0x3FF =
            (y - (t.take y).count 0x3FF) + 1 := by
          rw [hcnt]; omega
        have hq : (a :: t).filter (fun r => decide (r ≠ 0x3FF)) =
            a :: t.filter (fun r => decide (r ≠ 0x3FF)) := by
          simp [List.filter_cons, h]
        rw [hidx, hq]
        have hres := ih y hy2 hne2
        have hlt := hres.2
        constructor
        · simpa [List.getD_cons_succ] using hres.1
        · simp only [List.length_cons]
          omega

/-- C6.  `clearLines` clears a row exactly when its bitmask is the 10-bit
all-ones constant `0x3FF`: the reported count is the number of full rows,
the resulting board is the non-full rows in order with one empty row
appended at the top per clear, every surviving row lands lower by the number
of cleared rows below it, and in the particular single-clear situation (row
0 full, no other full row) the count is 1 and the former row 1 contents
occupy row 0. -/
theorem clearLines_characterization (pf : List ℕ) (h40 : pf.length = 40) :
    (clearLines pf).1 = pf.count 0x3FF ∧
    (clearLines pf).2 =
      pf.filter (fun r => decide (r ≠ 0x3FF)) ++ List.replicate (pf.count 0x3FF) 0 ∧
    (∀ y, y < 40 → pf.getD y 0 ≠ 0x3FF →
      (clearLines pf).2.getD (y - (pf.take y).count 0x3FF) 0 = pf.getD y 0) ∧
    (pf.getD 0 0 = 0x3FF → pf.count 0x3FF = 1 →
      (clearLines pf).1 = 1 ∧ (clearLines pf).2.getD 0 0 = pf.getD 1 0) := by
  have hidxlist : (List.range 40).filter (fun y => pf.getD y 0 = 0x3FF) = fullIdx pf := by
    rw [← h40]
    exact fullIdx_eq_filter pf
  have hcount : (clearLines pf).1 = pf.count 0x3FF := by
    rw [clearLines]
    simp only [hidxlist]
    exact fullIdx_length pf
  have hboard : (clearLines pf).2 =
      pf.filter (fun r => decide (r ≠ 0x3FF)) ++ List.replicate (pf.count 0x3FF) 0 := by
    rw [clearLines]
    simp only [hidxlist]
    exact foldl_removeRow_filter pf
  have hsurvive : ∀ y, y < 40 → pf.getD y 0 ≠ 0x3FF →
      (clearLines pf).2.getD (y - (pf.take y).count 0x3FF) 0 = pf.getD y 0 := by
    intro y hy hne
    have hy' : y < pf.length := by omega
    have hs := filter_getD_surviving pf y hy' hne
    rw [hboard, List.getD_append _ _ _ _ hs.2]
    exact hs.1
  refine ⟨hcount, hboard, hsurvive, fun hrow0 hone => ⟨by rw [hcount, hone], ?_⟩⟩
  have hne1 : pf.getD 1 0 ≠ 0x3FF := by
    cases pf with
    | nil => simp at h40
    | cons r0 rest =>
      have hr0 : r0 = 0x3FF := by simpa using hrow0
      have hcz : rest.count 0x3FF = 0 := by
        have := hone
        simp [List.count_cons, hr0] at this
        exact this
      have hmem : (0x3FF : ℕ) ∉ rest := by
        exact (List.count_eq_zero).1 hcz
      have hlen : 0 < rest.length := by
        simp at h40
        omega
      have hgd : rest.getD 0 0 ∈ rest := by
        rw [List.getD_eq_getElem rest 0 hlen]
        exact List.getElem_mem hlen
      intro hcon
      rw [List.getD_cons_succ] at hcon
      exact hmem (hcon ▸ hgd)
  have := hsurvive 1 (by norm_num) hne1
  have hidx : 1 - (pf.take 1).count 0x3FF = 0 := by
    cases pf with
    | nil => simp at h40
    | cons r0 rest =>
      have hr0 : r0 = 0x3FF := by simpa using hrow0
      simp [List.take_succ_cons, List.count_cons, hr0]
  rw [hidx] at this
  exact this

/-- A board with row 0 full (and a marker value 5 in row 1) used as the
concrete witness input. -/
def witnessBoard : List ℕ := 0x3FF :: 5 :: List.replicate 38 0

/-- Witness for C6 on `witnessBoard`: one line is reported and the former
row 1 marker lands in row 0. -/
theorem clearLines_characterization_witness :
    (clearLines witnessBoard).1 = 1 ∧ (clearLines witnessBoard).2.getD 0 0 = 5 := by
  have h := clearLines_characterization witnessBoard (by decide)
  have h4 := h.2.2.2 (by decide) (by decide)
  exact ⟨h4.1, by rw [h4.2]; decide⟩

/-!  Snapshot round trips.  The snapshot omits exactly two fields, `seed`
and the preset; `seed` is written once at construction and never read by any
operation, so two engines differing only in `seed` stay in lockstep. -/

/-- Replace only the `seed` field. -/
def setSeed (e : TetrisEngine) (s : ℕ) : TetrisEngine :=
  withGS e { e.state with seed := s }

/-- Replace only the `seed` field of a game state. -/
def setSeedGS (st : GameState) (s : ℕ) : GameState := { st with seed := s }

/-- The engine-level and state-level seed replacements agree. -/
theorem setSeed_eq_withGS (e : TetrisEngine) (s : ℕ) :
    setSeed e s = withGS e (setSeedGS e.state s) := rfl

/-- `updateScore` is oblivious to the `seed` field. -/
theorem updateScore_setSeedGS (st : GameState) (s : ℕ) (lc : ℕ) (t : Bool) :
    updateScore (setSeedGS st s) lc t = setSeedGS (updateScore st lc t) s := by
  unfold updateScore setSeedGS
  dsimp only
  split_ifs <;> rfl

/-- `fillBag` is oblivious to the `seed` field. -/
theorem fillBag_setSeed (e : TetrisEngine) (s : ℕ) :
    fillBag (setSeed e s) = setSeed (fillBag e) s := rfl

/-- `getNextPiece` is oblivious to the `seed` field. -/
theorem getNextPiece_setSeed (e : TetrisEngine) (s : ℕ) :
    getNextPiece (setSeed e s) = ((getNextPiece e).1, setSeed (getNextPiece e).2 s) := rfl

/-- `pushDraw` is oblivious to the `seed` field. -/
theorem pushDraw_setSeed (e : TetrisEngine) (s : ℕ) :
    pushDraw (setSeed e s) = setSeed (pushDraw e) s := rfl

/-- Iterated drawing is oblivious to the `seed` field. -/
theorem foldl_pushDraw_setSeed (l : List ℕ) : ∀ (e : TetrisEngine) (s : ℕ),
    l.foldl (fun e2 _ => pushDraw e2) (setSeed e s) =
      setSeed (l.foldl (fun e2 _ => pushDraw e2) e) s := by
  induction l with
  | nil => intro e s; rfl
  | cons a t ih =>
    intro e s
    simp only [List.foldl_cons, pushDraw_setSeed]
    exact ih (pushDraw e) s

/-- `topUpQueue` is oblivious to the `seed` field. -/
theorem topUpQueue_setSeed (e : TetrisEngine) (s : ℕ) :
    topUpQueue (setSeed e s) = setSeed (topUpQueue e) s := by
  unfold topUpQueue
  exact foldl_pushDraw_setSeed _ e s

/-- `spawnPiece` is oblivious to the `seed` field. -/
theorem spawnPiece_setSeed (e : TetrisEngine) (s : ℕ) :
    spawnPiece (setSeed e s) = ((spawnPiece e).1, setSeed (spawnPiece e).2 s) := by
  unfold spawnPiece
  rw [topUpQueue_setSeed]
  dsimp only [setSeed, withGS, pushDraw, getNextPiece, fillBag]
  split_ifs <;> rfl

/-- `phaseRotate` is oblivious to the `seed` field. -/
theorem phaseRotate_setSeed (e : TetrisEngine) (s : ℕ) (i : InputState) (p : PieceData) :
    phaseRotate (setSeed e s) i p =
      (setSeed (phaseRotate e i p).1 s, (phaseRotate e i p).2) := by
  unfold phaseRotate
  cases hi : i.rotate
  · rfl
  · rw [show tryKick (setSeed e s).state.playfield p ((p.rotation + 1) % 4) =
        tryKick e.state.playfield p ((p.rotation + 1) % 4) from rfl]
    cases hk : tryKick e.state.playfield p ((p.rotation + 1) % 4) <;> rfl

/-- `phaseHold` is oblivious to the `seed` field. -/
theorem phaseHold_setSeed (e : TetrisEngine) (s : ℕ) (i : InputState) (p : PieceData)
    (m : Bool) :
    phaseHold (setSeed e s) i p m = (setSeed (phaseHold e i p m).1 s, (phaseHold e i p m).2) := by
  unfold phaseHold
  cases hh : i.hold && e.state.canHold
  · rw [show (i.hold && (setSeed e s).state.canHold) = (i.hold && e.state.canHold) from rfl, hh]
    rfl
  · rw [show (i.hold && (setSeed e s).state.canHold) = (i.hold && e.state.canHold) from rfl, hh]
    rw [show (setSeed e s).state.holdPiece = e.state.holdPiece from rfl]
    cases hp : e.state.holdPiece
    · rw [show withGS (setSeed e s)
            ({ (setSeed e s).state with
               holdPiece := some p.type, currentPiece := none, canHold := false }) =
          setSeed (withGS e ({ e.state with
               holdPiece := some p.type, currentPiece := none, canHold := false })) s from rfl,
        spawnPiece_setSeed]
      rfl
    · rfl

/-- `phaseDAS` is oblivious to the `seed` field. -/
theorem phaseDAS_setSeed (e : TetrisEngine) (s : ℕ) (dt : ℚ) (i : InputState)
    (p : PieceData) (m : Bool) :
    phaseDAS (setSeed e s) dt i p m =
      (setSeed (phaseDAS e dt i p m).1 s, (phaseDAS e dt i p m).2) := by
  unfold phaseDAS
  dsimp only [setSeed, withGS]
  split_ifs <;> rfl

/-- `phaseSoft` is oblivious to the `seed` field. -/
theorem phaseSoft_setSeed (e : TetrisEngine) (s : ℕ) (i : InputState) (p : PieceData)
    (m : Bool) :
    phaseSoft (setSeed e s) i p m =
      (setSeed (phaseSoft e i p m).1 s, (phaseSoft e i p m).2) := by
  unfold phaseSoft
  dsimp only [setSeed, withGS]
  split_ifs <;> rfl

/-- `phaseHard` is oblivious to the `seed` field. -/
theorem phaseHard_setSeed (e : TetrisEngine) (s : ℕ) (i : InputState) (p : PieceData)
    (m : Bool) :
    phaseHard (setSeed e s) i p m =
      (setSeed (phaseHard e i p m).1 s, (phaseHard e i p m).2) := by
  unfold phaseHard
  dsimp only [setSeed, withGS]
  split_ifs <;> rfl

/-- `phaseGravity` is oblivious to the `seed` field. -/
theorem phaseGravity_setSeed (e : TetrisEngine) (s : ℕ) (dt : ℚ) (p : PieceData) :
    phaseGravity (setSeed e s) dt p = setSeed (phaseGravity e dt p) s := by
  unfold phaseGravity
  dsimp only [setSeed, withGS]
  split_ifs <;> rfl

/-- `phaseLock` is oblivious to the `seed` field. -/
theorem phaseLock_setSeed (e : TetrisEngine) (s : ℕ) (dt : ℚ) (i : InputState)
    (p : PieceData) (m : Bool) :
    phaseLock (setSeed e s) dt i p m =
      (setSeed (phaseLock e dt i p m).1 s, (phaseLock e dt i p m).2) := by
  cases e with
  | mk st bag =>
    cases st with
    | mk pf cp nq hpc ch sc ln lv cb bb gq lt dpt dat art dd go tm sd rg pr =>
      unfold phaseLock
      dsimp only [setSeed, withGS]
      have hUS := updateScore_setSeedGS
        ⟨(clearLines (placePiece pf p)).2, cp, nq, hpc, ch, sc, ln, lv, cb, bb, gq,
          lt + dt, dpt, dat, art, dd, go, tm, sd, rg, pr⟩ s
          (clearLines (placePiece pf p)).1 (checkTSpin pf p)
      dsimp only [setSeedGS] at hUS
      split_ifs <;> first | rfl | (rw [hUS]; try rfl)

/-- `runFrame` is oblivious to the `seed` field. -/
theorem runFrame_setSeed (e : TetrisEngine) (s : ℕ) (dt : ℚ) (i : InputState) :
    runFrame (setSeed e s) dt i = (setSeed (runFrame e dt i).1 s, (runFrame e dt i).2) := by
  unfold runFrame
  cases hc : e.state.currentPiece with
  | none => rw [show (setSeed e s).state.currentPiece = e.state.currentPiece from rfl, hc]
  | some p =>
    rw [show (setSeed e s).state.currentPiece = e.state.currentPiece from rfl, hc]
    simp only [phaseRotate_setSeed, phaseHold_setSeed, phaseDAS_setSeed, phaseSoft_setSeed,
      phaseHard_setSeed, phaseGravity_setSeed, phaseLock_setSeed]

/-- A step of `update` is oblivious to the `seed` field: it transports
through unchanged and influences neither the result nor any other field. -/
theorem updateE_setSeed (e : TetrisEngine) (s : ℕ) (dt : ℚ) (i : InputState) :
    updateE (setSeed e s) dt i = (setSeed (updateE e dt i).1 s, (updateE e dt i).2) := by
  unfold updateE
  cases hg : e.state.gameOver
  · rw [show (setSeed e s).state.gameOver = e.state.gameOver from rfl, hg]
    simp only [Bool.false_eq_true, if_false]
    have hb : withGS (setSeed e s)
        ({ (setSeed e s).state with time := (setSeed e s).state.time + dt }) =
        setSeed (withGS e ({ e.state with time := e.state.time + dt })) s := rfl
    rw [hb]
    cases hc : (withGS e ({ e.state with time := e.state.time + dt })).state.currentPiece with
    | none =>
      rw [show (setSeed (withGS e ({ e.state with time := e.state.time + dt })) s).state.currentPiece =
        (withGS e ({ e.state with time := e.state.time + dt })).state.currentPiece from rfl, hc]
      simp only [spawnPiece_setSeed]
      split_ifs <;> simp only [runFrame_setSeed]
    | some p =>
      rw [show (setSeed (withGS e ({ e.state with time := e.state.time + dt })) s).state.currentPiece =
        (withGS e ({ e.state with time := e.state.time + dt })).state.currentPiece from rfl, hc]
      simp only [runFrame_setSeed]
  · rw [show (setSeed e s).state.gameOver = e.state.gameOver from rfl, hg]
    rfl

/-- Serialization is oblivious to the `seed` field. -/
theorem serializeState_setSeed (e : TetrisEngine) (s : ℕ) :
    serializeState (setSeed e s) = serializeState e := rfl

/-- Whole snapshot traces are oblivious to the `seed` field. -/
theorem snapTrace_setSeed (frames : List (ℚ × InputState)) : ∀ (e : TetrisEngine) (s : ℕ),
    snapTrace (setSeed e s) frames = snapTrace e frames := by
  induction frames with
  | nil => intro e s; rfl
  | cons f rest ih =>
    intro e s
    simp only [snapTrace, updateE_setSeed, serializeState_setSeed]
    exact congrArg _ (ih (updateE e f.1 f.2).1 s)

/-- Loading a snapshot of engine `e₁` into engine `e₂` of the same preset
reproduces `e₁` except for the unserialized `seed` field. -/
theorem loadState_serialize (e₁ e₂ : TetrisEngine)
    (hp : e₂.state.preset = e₁.state.preset) :
    loadState e₂ (serializeState e₁) = setSeed e₁ e₂.state.seed := by
  cases e₁ with
  | mk s1 b1 =>
    cases e₂ with
    | mk s2 b2 =>
      cases s1
      cases s2
      simp_all [loadState, serializeState, setSeed, withGS]

/-- C9.  `loadState(serializeState())` round trip: on the same engine it
restores every field exactly; on another engine with the same preset it
restores every serialized field (all of the game state, the RNG word and the
bag — everything except the never-read `seed`), so the loaded engine hands
back the original snapshot and every subsequent sequence of `update` calls
produces snapshots bit-identical to the engine that never round-tripped. -/
theorem load_serialize_round_trip (e₁ e₂ : TetrisEngine)
    (hp : e₂.state.preset = e₁.state.preset) (frames : List (ℚ × InputState)) :
    loadState e₁ (serializeState e₁) = e₁ ∧
    serializeState (loadState e₂ (serializeState e₁)) = serializeState e₁ ∧
    snapTrace (loadState e₂ (serializeState e₁)) frames = snapTrace e₁ frames := by
  refine ⟨rfl, ?_, ?_⟩
  · rw [loadState_serialize e₁ e₂ hp, serializeState_setSeed]
  · rw [loadState_serialize e₁ e₂ hp, snapTrace_setSeed]

/-- Witness for C9: the test engine snapshot loaded into an engine of the
same preset but another seed, then stepped one hard-drop frame. -/
theorem load_serialize_round_trip_witness :
    loadState demoEngine (serializeState demoEngine) = demoEngine ∧
    serializeState (loadState (mkEngine "guideline" 999) (serializeState demoEngine)) =
      serializeState demoEngine ∧
    snapTrace (loadState (mkEngine "guideline" 999) (serializeState demoEngine))
        [(100, { neutralInput with hardDrop := true })] =
      snapTrace demoEngine [(100, { neutralInput with hardDrop := true })] :=
  load_serialize_round_trip demoEngine (mkEngine "guideline" 999) (by decide)
    [(100, { neutralInput with hardDrop := true })]

/-!  The stale-piece capture.  `update` binds
`const piece = this.state.currentPiece!` once; a successful rotation
replaces `state.currentPiece`, but the later movement, gravity and lock
computations keep using the captured `piece`, so a successful immediate
horizontal move built from the stale piece overwrites — and thereby
discards — the accepted rotation. -/

/-- A successful kick carries the requested rotation. -/
theorem tryKick_rotation (pf : List ℕ) (p : PieceData) (nr : ℕ) (q : PieceData)
    (h : tryKick pf p nr = some q) : q.rotation = nr := by
  unfold tryKick at h
  have hmem := List.mem_of_find?_eq_some h
  rcases List.mem_map.1 hmem with ⟨k, _, hk⟩
  rw [← hk]

set_option maxHeartbeats 2000000 in
/-- C10.  In one `update` call on a live engine with active piece `p`, when
the rotation input succeeds (kick result `q`) and a newly pressed horizontal
direction also succeeds as an immediate one-cell move from the stale piece
`p` (with hold, soft drop and hard drop all released), the piece left in the
state — when one is left at all — still carries the pre-call rotation: the
accepted rotation `q.rotation ≠ p.rotation` has been discarded, because
movement, gravity and the lock test all start from the captured `p`. -/
theorem accepted_rotation_discarded_by_immediate_move
    (e : TetrisEngine) (dt : ℚ) (i : InputState) (p q : PieceData)
    (hgo : e.state.gameOver = false)
    (hcp : e.state.currentPiece = some p)
    (hrot : i.rotate = true)
    (hkick : tryKick e.state.playfield p ((p.rotation + 1) % 4) = some q)
    (hhold : i.hold = false)
    (hsoft : i.softDrop = false)
    (hhard : i.hardDrop = false)
    (hlr : (i.left || i.right) = true)
    (hnew : e.state.dasDirection ≠ (if i.left = true then -1 else 1))
    (hmove : canPlace e.state.playfield
      { p with x := p.x + (if i.left = true then -1 else 1) } = true) :
    (∀ r : PieceData, (updateE e dt i).1.state.currentPiece = some r →
      r.rotation = p.rotation) ∧ q.rotation ≠ p.rotation := by
  constructor
  · intro r hr
    rcases e with ⟨st, bag⟩
    rcases st with ⟨pf, cp, nq, hpc, ch, sc, ln, lv, cb, bb, gq, lt, dpt, dat, art, dd,
      go, tm, sd0, rg, pr⟩
    rcases i with ⟨il, ir, isd, ihd, irot, ihld⟩
    simp only at hgo hcp hrot hhold hsoft hhard hlr hnew hmove hkick hr
    subst hgo hcp hrot hhold hsoft hhard
    simp only [updateE, runFrame, phaseRotate, phaseHold, phaseDAS, phaseSoft, phaseHard,
      phaseGravity, phaseLock, withGS, hkick, hlr, Bool.false_eq_true, if_false, if_true,
      Bool.false_and, Bool.and_self, Bool.true_and, Bool.and_false, Bool.not_false,
      Bool.not_true] at hr
    rw [if_pos hnew, if_pos hmove] at hr
    simp only at hr
    split_ifs at hr <;> (try simp_all)
    all_goals rw [← hr]
  · have hq := tryKick_rotation e.state.playfield p ((p.rotation + 1) % 4) q hkick
    rw [hq]
    omega

/-- Witness for C10 on the test engine: rotate together with a newly pressed
left on the first frame; the I piece ends up moved to x = 2 with its original
rotation 0, the accepted kick rotation 1 discarded. -/
theorem accepted_rotation_discarded_witness :
    (∀ r : PieceData,
      (updateE demoEngine (50 / 3)
          { neutralInput with rotate := true, left := true }).1.state.currentPiece = some r →
      r.rotation = (⟨0, 3, 20, 0⟩ : PieceData).rotation) ∧
    (⟨0, 3, 20, 1⟩ : PieceData).rotation ≠ (⟨0, 3, 20, 0⟩ : PieceData).rotation :=
  accepted_rotation_discarded_by_immediate_move demoEngine (50 / 3)
    { neutralInput with rotate := true, left := true } ⟨0, 3, 20, 0⟩ ⟨0, 3, 20, 1⟩
    (by decide) (by decide) rfl (by decide) rfl rfl rfl rfl (by decide) (by decide)

end Tetris
